import Mathlib

/-!
Shallow embedding of `src/app.py` (langchain-flask-api): a Flask app that
forwards questions to an LLM completion provider and keeps a bounded
per-session chat history in the process-global dict `chat_histories`.

Request bodies are modelled as parsed JSON values (`JsonVal`), the
completion provider (`chain.invoke`) as an explicit function argument
returning either an answer string or a raised Python exception, and the
wall clock (`datetime.datetime.now()`) as an explicit string argument.
Each Flask view function becomes a pure Lean function from the current
store (and request data) to a response record plus the updated store.
-/

/-- A parsed JSON value, as `flask.request.get_json()` produces it:
objects become Python dicts (modelled as key/value lists with distinct
keys), arrays become lists, and scalars become `None`, `bool`, `int`
and `str` values. -/
inductive JsonVal : Type where
  | null : JsonVal
  | bool (b : Bool) : JsonVal
  | num (n : Int) : JsonVal
  | str (s : String) : JsonVal
  | arr (xs : List JsonVal) : JsonVal
  | obj (kvs : List (String × JsonVal)) : JsonVal

/-- The name Python's `type(x).__name__` gives for each modelled value. -/
def pyTypeName : JsonVal → String
  | JsonVal.null => "NoneType"
  | JsonVal.bool _ => "bool"
  | JsonVal.num _ => "int"
  | JsonVal.str _ => "str"
  | JsonVal.arr _ => "list"
  | JsonVal.obj _ => "dict"

/-- Python truthiness (`bool(x)`) of a parsed JSON value: `None`, `False`,
`0`, `""`, `[]` and an empty dict are falsy, everything else is truthy. -/
def pyTruthy : JsonVal → Bool
  | JsonVal.null => false
  | JsonVal.bool b => b
  | JsonVal.num n => n != 0
  | JsonVal.str s => !s.isEmpty
  | JsonVal.arr xs => !xs.isEmpty
  | JsonVal.obj kvs => !kvs.isEmpty

/-- Values Python can hash, i.e. use as dict keys: among JSON-shaped
values, everything except lists and dicts. -/
def pyHashable : JsonVal → Bool
  | JsonVal.arr _ => false
  | JsonVal.obj _ => false
  | _ => true

/-- Python `==` between hashable JSON scalars, the only equality test the
app ever performs between dict keys (`chat_histories[session_id]`).
Values of distinct types compare unequal, except that Python identifies
`True`/`False` with `1`/`0`. Lists and dicts are unhashable, so they never
reach a dict operation; the catch-all returns `false` for them. -/
def keyEq : JsonVal → JsonVal → Bool
  | JsonVal.null, JsonVal.null => true
  | JsonVal.bool a, JsonVal.bool b => a == b
  | JsonVal.num a, JsonVal.num b => a == b
  | JsonVal.bool a, JsonVal.num b => (if a then (1 : Int) else 0) == b
  | JsonVal.num a, JsonVal.bool b => a == (if b then (1 : Int) else 0)
  | JsonVal.str a, JsonVal.str b => a == b
  | _, _ => false

mutual

/-- Python `str(x)` for a parsed JSON value, as interpolated by the
f-strings of `app.py`. Containers are rendered through `repr` of their
elements (escaping inside `repr` of strings is not modelled; the app
never depends on it). -/
def pyStr : JsonVal → String
  | JsonVal.null => "None"
  | JsonVal.bool true => "True"
  | JsonVal.bool false => "False"
  | JsonVal.num n => toString n
  | JsonVal.str s => s
  | JsonVal.arr xs => "[" ++ pyReprList xs ++ "]"
  | JsonVal.obj kvs => "\x7b" ++ pyReprObj kvs ++ "\x7d"

/-- Python `repr(x)`: like `str` except strings gain quotes. -/
def pyRepr : JsonVal → String
  | JsonVal.str s => "\x27" ++ s ++ "\x27"
  | JsonVal.null => "None"
  | JsonVal.bool true => "True"
  | JsonVal.bool false => "False"
  | JsonVal.num n => toString n
  | JsonVal.arr xs => "[" ++ pyReprList xs ++ "]"
  | JsonVal.obj kvs => "\x7b" ++ pyReprObj kvs ++ "\x7d"

/-- Comma-separated `repr` of list elements. -/
def pyReprList : List JsonVal → String
  | [] => ""
  | [x] => pyRepr x
  | x :: y :: xs => pyRepr x ++ ", " ++ pyReprList (y :: xs)

/-- Comma-separated `repr` of dict entries. -/
def pyReprObj : List (String × JsonVal) → String
  | [] => ""
  | [(k, v)] => "\x27" ++ k ++ "\x27: " ++ pyRepr v
  | (k, v) :: y :: xs => "\x27" ++ k ++ "\x27: " ++ pyRepr v ++ ", " ++ pyReprObj (y :: xs)

end

/-- Key lookup in a parsed JSON object (a Python dict keyed by strings). -/
def lookupKV (k : String) : List (String × JsonVal) → Option JsonVal
  | [] => none
  | (k1, v) :: rest => if k1 == k then some v else lookupKV k rest

/-- Boolean test that `needle` is a prefix of the character list. -/
def prefixCheck : List Char → List Char → Bool
  | [], _ => true
  | _ :: _, [] => false
  | c :: cs, d :: ds => c == d && prefixCheck cs ds

/-- Boolean test that `needle` occurs contiguously inside the character
list, as Python's `needle in hay` does for strings. -/
def infixCheck (needle : List Char) : List Char → Bool
  | [] => needle.isEmpty
  | c :: cs => prefixCheck needle (c :: cs) || infixCheck needle cs

/-- Python substring test `needle in hay`. -/
def substrB (needle hay : String) : Bool := infixCheck needle.data hay.data

/-- The literal key `"question"` the handler validates. -/
def questionKey : String := "question"

/-- The literal key `"session_id"`. -/
def sessionKey : String := "session_id"

/-- The sentinel session id used when the request supplies none
(`data.get('session_id', 'default_session')`). -/
def defaultSession : String := "default_session"

/-- A raised Python exception: its type name and its `str(e)` text. -/
structure PyExn : Type where
  name : String
  msg : String

/-- The exception type name `TypeError`. -/
def typeErrorName : String := "TypeError"

/-- The exception type name `KeyError`. -/
def keyErrorName : String := "KeyError"

/-- The `TypeError` Python raises for `'question' in x` when `x` is not a
container or string. -/
def notIterableExn (v : JsonVal) : PyExn :=
  ⟨typeErrorName, "argument of type \x27" ++ pyTypeName v ++ "\x27 is not iterable"⟩

/-- The `TypeError` raised by `data['question']` when `data` is a string
or list (or other non-dict). -/
def subscriptExn (v : JsonVal) : PyExn :=
  match v with
  | JsonVal.str _ => ⟨typeErrorName, "string indices must be integers"⟩
  | JsonVal.arr _ => ⟨typeErrorName, "list indices must be integers or slices, not str"⟩
  | w => ⟨typeErrorName, "\x27" ++ pyTypeName w ++ "\x27 object is not subscriptable"⟩

/-- The `TypeError` raised by `chat_histories[session_id] = []` once
`chat_histories` has been replaced by a Python list. -/
def pylistAssignExn (sid : JsonVal) : PyExn :=
  ⟨typeErrorName, "list indices must be integers or slices, not " ++ pyTypeName sid⟩

/-- The `TypeError` raised by `session_id not in chat_histories` for an
unhashable session id. -/
def unhashableExn (sid : JsonVal) : PyExn :=
  ⟨typeErrorName, "unhashable type: \x27" ++ pyTypeName sid ++ "\x27"⟩

/-- The `TypeError` raised by `chat_histories[session_id:]`, which slices
the dict `chat_histories` with a slice object (line 140 of `app.py`). -/
def sliceExn : PyExn :=
  ⟨typeErrorName, "unhashable type: \x27slice\x27"⟩

/-- The error text produced by the two `except` clauses of `ask_question`:
`except KeyError` yields one format, `except Exception` the other. -/
def caughtMsg (e : PyExn) : String :=
  if e.name == keyErrorName then keyErrorName ++ ": " ++ e.msg
  else "Unexpected error: " ++ e.name ++ ": " ++ e.msg

/-- Outcome of evaluating Python `'question' in data`. -/
inductive ContainsRes : Type where
  | present : ContainsRes
  | absent : ContainsRes
  | raises (e : PyExn) : ContainsRes

/-- Test equality against the Python string `"question"`; a list element
of any other type compares unequal under `==`. -/
def isQuestionStr : JsonVal → Bool
  | JsonVal.str s => s == questionKey
  | _ => false

/-- Python `'question' in data`: key membership for dicts, element
membership for lists, substring test for strings, `TypeError` for
non-iterable scalars. -/
def pyContainsQuestion : JsonVal → ContainsRes
  | JsonVal.obj kvs =>
      if (lookupKV questionKey kvs).isSome then ContainsRes.present else ContainsRes.absent
  | JsonVal.arr xs =>
      if xs.any isQuestionStr then ContainsRes.present else ContainsRes.absent
  | JsonVal.str s =>
      if substrB questionKey s then ContainsRes.present else ContainsRes.absent
  | v => ContainsRes.raises (notIterableExn v)

/-- One recorded Q/A turn, as appended by `ask_question`: the original
request value under `"question"`, the provider answer, and the stringified
timestamp. -/
structure Turn : Type where
  question : JsonVal
  answer : String
  timestamp : String

/-- The value handed to `chain.invoke`: the unmodified question value when
there is no history, or the f-string-built context text otherwise. -/
inductive Prompt : Type where
  | raw (v : JsonVal) : Prompt
  | text (s : String) : Prompt

/-- The header line the handler prepends to a non-empty history. -/
def previousConvHeader : String := "previous conversation:\n"

/-- One history entry as rendered into the context
(`f"Human: {entry['question']}\nAI: {entry['answer']}\n"`). -/
def renderEntry (t : Turn) : String :=
  "Human: " ++ pyStr t.question ++ "\nAI: " ++ t.answer ++ "\n"

/-- The `context` string built from the session history: `context` stays
`""` for an empty history, otherwise it starts as the header and the loop
`for entry in session_history` appends each rendered entry with `+=`. -/
def contextOf (h : List Turn) : String :=
  if h.isEmpty then ""
  else h.foldl (fun acc t => acc ++ renderEntry t) previousConvHeader

/-- The `contextualized_question` handed to the provider: the raw question
value if `context` is empty (falsy), else `f"{context}Human: {question}"`. -/
def contextualize (h : List Turn) (q : JsonVal) : Prompt :=
  let context := contextOf h
  if context.isEmpty then Prompt.raw q
  else Prompt.text (context ++ "Human: " ++ pyStr q)

/-- The process-global `chat_histories`. It starts as a dict from session
id to turn list, but `clear_history` reassigns it to the Python list `[]`;
`pylist` is that (empty-list-valued) state. -/
inductive ChatHistories : Type where
  | dict (m : List (JsonVal × List Turn)) : ChatHistories
  | pylist : ChatHistories

/-- Dict lookup `chat_histories[k]` over the entry list. -/
def lookupJ (k : JsonVal) : List (JsonVal × List Turn) → Option (List Turn)
  | [] => none
  | (k1, v) :: rest => if keyEq k1 k then some v else lookupJ k rest

/-- Dict membership `k in chat_histories`. -/
def containsKeyJ (k : JsonVal) (m : List (JsonVal × List Turn)) : Bool :=
  (lookupJ k m).isSome

/-- In-place `chat_histories[k].append(t)`: append to the matching entry. -/
def appendJ (k : JsonVal) (t : Turn) : List (JsonVal × List Turn) → List (JsonVal × List Turn)
  | [] => []
  | (k1, v) :: rest =>
      if keyEq k1 k then (k1, v ++ [t]) :: rest else (k1, v) :: appendJ k t rest

/-- The constant `MAX_HISTORY_LENGTH` from `app.py`. -/
def MAX_HISTORY_LENGTH : Nat := 10

/-- The turn list stored for a session, empty when absent (or when the
store has been replaced by a list). -/
def histOf (s : ChatHistories) (k : JsonVal) : List Turn :=
  match s with
  | ChatHistories.dict m => (lookupJ k m).getD []
  | ChatHistories.pylist => []

/-- Whether a (string-identified) session entry exists in the store. -/
def hasSession (s : ChatHistories) (sid : String) : Bool :=
  match s with
  | ChatHistories.dict m => containsKeyJ (JsonVal.str sid) m
  | ChatHistories.pylist => false

/-- Everything observable about one `/ask` request: the HTTP status, the
JSON body fields (`answer`, `status`, `session_id`, `history`, `error`),
the store afterwards, and the prompts the provider was invoked with. -/
structure AskResult : Type where
  status : Nat
  answer : Option String
  statusField : Option String
  respSessionId : Option JsonVal
  respHistory : Option (List Turn)
  errorMsg : Option String
  store : ChatHistories
  providerCalls : List Prompt

/-- An error exit from `ask_question`: a 400/500 with an error body, the
store as it stands, and no further provider calls. -/
def askErr (st : Nat) (msg : String) (store : ChatHistories) : AskResult :=
  { status := st, answer := none, statusField := none, respSessionId := none,
    respHistory := none, errorMsg := some msg, store := store, providerCalls := [] }

/-- The literal 400 error text of the handler. -/
def missingQuestionMsg : String := "Missing \x27question\x27 in request body"

/-- The literal value of the success `status` field. -/
def successText : String := "success"

/-- The `POST /ask` view function (`ask_question` in `app.py`), given the
current store, the parsed request body, the completion provider
(`chain.invoke`) and the current timestamp string. Follows the source
line by line: validate, resolve the session id, create the session entry
if absent, build the context, call the provider, append the turn, then
trim — where the trim expression `chat_histories[session_id:]` raises
`TypeError` (a dict sliced with a slice object), which the blanket
`except Exception` turns into a 500 after the append already happened. -/
def ask_question (store : ChatHistories) (data : JsonVal)
    (provider : Prompt → Except PyExn String) (now : String) : AskResult :=
  if pyTruthy data = false then askErr 400 missingQuestionMsg store
  else
    match pyContainsQuestion data with
    | ContainsRes.raises e => askErr 500 (caughtMsg e) store
    | ContainsRes.absent => askErr 400 missingQuestionMsg store
    | ContainsRes.present =>
      match data with
      | JsonVal.obj kvs =>
        match lookupKV questionKey kvs with
        | none => askErr 500 (caughtMsg ⟨keyErrorName, "\x27question\x27"⟩) store
        | some q =>
          let sid := (lookupKV sessionKey kvs).getD (JsonVal.str defaultSession)
          match store with
          | ChatHistories.pylist =>
              askErr 500 (caughtMsg (pylistAssignExn sid)) ChatHistories.pylist
          | ChatHistories.dict m =>
            if pyHashable sid = false then
              askErr 500 (caughtMsg (unhashableExn sid)) (ChatHistories.dict m)
            else
              let m1 := if containsKeyJ sid m then m else m ++ [(sid, [])]
              let hist := (lookupJ sid m1).getD []
              let prompt := contextualize hist q
              match provider prompt with
              | Except.error e =>
                  { status := 500, answer := none, statusField := none,
                    respSessionId := none, respHistory := none,
                    errorMsg := some (caughtMsg e),
                    store := ChatHistories.dict m1, providerCalls := [prompt] }
              | Except.ok ans =>
                  let m2 := appendJ sid ⟨q, ans, now⟩ m1
                  let newHist := (lookupJ sid m2).getD []
                  if MAX_HISTORY_LENGTH < newHist.length then
                    { status := 500, answer := none, statusField := none,
                      respSessionId := none, respHistory := none,
                      errorMsg := some (caughtMsg sliceExn),
                      store := ChatHistories.dict m2, providerCalls := [prompt] }
                  else
                    { status := 200, answer := some ans, statusField := some successText,
                      respSessionId := some sid, respHistory := some newHist,
                      errorMsg := none,
                      store := ChatHistories.dict m2, providerCalls := [prompt] }
      | other => askErr 500 (caughtMsg (subscriptExn other)) store

/-- The response of `GET /history`: always HTTP 200, with the stored
turns, their count, the echoed session id, and an informational `error`
field when the session is unknown. -/
structure HistoryResponse : Type where
  status : Nat
  history : List Turn
  count : Nat
  respSessionId : String
  errorMsg : Option String

/-- The informational `error` text for an unknown session. -/
def noHistoryMsg (sid : String) : String :=
  "No chat history found for session " ++ sid

/-- The `GET /history` view function (`get_history` in `app.py`), with the
`session_id` query parameter already defaulted to `default_session` by the
caller. A pure read: the store is returned unchanged. When the store has
been replaced by the Python list `[]`, the membership test
`session_id not in chat_histories` is list membership and succeeds, so the
not-found branch runs. -/
def get_history (store : ChatHistories) (session_id : String) :
    HistoryResponse × ChatHistories :=
  match store with
  | ChatHistories.pylist =>
      (⟨200, [], 0, session_id, some (noHistoryMsg session_id)⟩, ChatHistories.pylist)
  | ChatHistories.dict m =>
      match lookupJ (JsonVal.str session_id) m with
      | none =>
          (⟨200, [], 0, session_id, some (noHistoryMsg session_id)⟩, ChatHistories.dict m)
      | some h => (⟨200, h, h.length, session_id, none⟩, ChatHistories.dict m)

/-- The response of `GET /sessions`: the key list and its length, or a
500 with no JSON body when `chat_histories.keys()` raises
`AttributeError` (after `clear_history` has made the store a list; the
exception is uncaught, so Flask answers with a generic 500). -/
structure SessionsResponse : Type where
  status : Nat
  sessions : Option (List JsonVal)
  count : Option Nat

/-- The `GET /sessions` view function (`get_sessions` in `app.py`). -/
def get_sessions : ChatHistories → SessionsResponse
  | ChatHistories.dict m => ⟨200, some (m.map Prod.fst), some m.length⟩
  | ChatHistories.pylist => ⟨500, none, none⟩

/-- Python `len(chat_histories)`: the number of dict entries, or 0 for
the empty list the store becomes after `clear_history`. -/
def sessionCount : ChatHistories → Nat
  | ChatHistories.dict m => m.length
  | ChatHistories.pylist => 0

/-- The response of `POST /clear-all-history`. -/
structure ClearResponse : Type where
  status : Nat
  message : String
  statusField : String

/-- The `POST /clear-all-history` view function (`clear_history` in
`app.py`). Note the source reassigns `chat_histories = []`, i.e. an empty
Python list, not an empty dict. -/
def clear_history (store : ChatHistories) : ClearResponse × ChatHistories :=
  (⟨200,
    "Chat history cleared for all " ++ toString (sessionCount store) ++ " sessions",
    successText⟩,
   ChatHistories.pylist)

/-- The lowercase hex digit for a value below 16. -/
def hexChar (n : Nat) : Char :=
  if n < 10 then Char.ofNat (48 + n) else Char.ofNat (87 + n)

/-- The fixed-width big-endian hex rendering of `n` with `len` digits. -/
def hexDigits : Nat → Nat → List Char
  | _, 0 => []
  | n, len + 1 => hexDigits (n / 16) len ++ [hexChar (n % 16)]

/-- The dash character of the UUID text form. -/
def dashChar : Char := Char.ofNat 45

/-- The character sequence of `str(uuid.UUID(int=n))`: 32 hex digits in
the 8-4-4-4-12 grouping. -/
def uuidChars (n : Nat) : List Char :=
  let d := hexDigits n 32
  d.take 8 ++ dashChar :: (d.drop 8).take 4 ++ dashChar :: (d.drop 12).take 4
    ++ dashChar :: (d.drop 16).take 4 ++ dashChar :: d.drop 20

/-- `str(uuid.UUID(int=n))` for a 128-bit integer `n`. -/
def uuidStr (n : Nat) : String := String.mk (uuidChars n)

/-- `uuid.uuid4()` as CPython computes it from 16 random bytes `r`:
force the variant bits (clear bits 62-63 of the high half, set bit 63)
and the version bits (clear bits 76-79, set the version 4). -/
def uuid4 (r : Nat) : Nat :=
  let x0 := r % 2 ^ 128
  let x1 := x0 &&& (2 ^ 128 - 1 - (0xc000 <<< 48))
  let x2 := x1 ||| (0x8000 <<< 48)
  let x3 := x2 &&& (2 ^ 128 - 1 - (0xf000 <<< 64))
  x3 ||| (4 <<< 76)

/-- The response of `GET /generate-session`. -/
structure GenerateResponse : Type where
  status : Nat
  respSessionId : String
  statusField : String

/-- The `GET /generate-session` view function (`generate_session` in
`app.py`), with the 128-bit randomness drawn for `uuid.uuid4()` passed in
explicitly. -/
def generate_session (r : Nat) : GenerateResponse :=
  ⟨200, uuidStr (uuid4 r), successText⟩

/-- The spec-side rendering of stored turns, two lines per turn
(a helper for `specBuild` below). -/
def specLines : List (String × String) → String
  | [] => ""
  | (q, a) :: rest => "Human: " ++ q ++ "\nAI: " ++ a ++ "\n" ++ specLines rest

/-- Modelled from the spec (§4.2 ContextBuilder), for comparison with the
code's `contextualize`: on an empty turn list the new question unchanged;
otherwise a fixed header line, then for each stored turn in order the two
lines `Human: <question>` and `AI: <answer>`, followed by a final line
`Human: <new_question>`. -/
def specBuild (turns : List (String × String)) (newQuestion : String) : String :=
  match turns with
  | [] => newQuestion
  | _ :: _ => previousConvHeader ++ specLines turns ++ "Human: " ++ newQuestion

/-- A fixed provider answer used for concrete runs. -/
def okAnswer : String := "ans"

/-- A provider that always answers `okAnswer`. -/
def okProvider : Prompt → Except PyExn String := fun _ => Except.ok okAnswer

/-- A concrete provider exception. -/
def boomExn : PyExn := ⟨"Exception", "boom"⟩

/-- A provider whose call always fails with `boomExn`. -/
def failProvider : Prompt → Except PyExn String := fun _ => Except.error boomExn

/-- A fixed timestamp string for concrete runs. -/
def tsConst : String := "2026-10-12 00:00:00"

/-- A concrete session id. -/
def sessA : String := "s"

/-- A request body `{"question": q, "session_id": sid}`. -/
def askBody (q : String) (sid : String) : JsonVal :=
  JsonVal.obj [(questionKey, JsonVal.str q), (sessionKey, JsonVal.str sid)]

/-- One `/ask` call with a plain string question, the constant provider
and the constant clock. -/
def askStr (store : ChatHistories) (q sid : String) : AskResult :=
  ask_question store (askBody q sid) okProvider tsConst

/-- The question text used in the n-th concrete call. -/
def qLabel (n : Nat) : String := "q" ++ toString n

/-- The store after n consecutive `/ask` calls for session `sid`, with
questions `q1`, ..., `qn`. -/
def runAsks (store : ChatHistories) (sid : String) : Nat → ChatHistories
  | 0 => store
  | n + 1 => (askStr (runAsks store sid n) (qLabel (n + 1)) sid).store

/-- C1. The retention cap is never enforced by the code: after 10
successful `/ask` calls the history has length 10 as claimed, but the
11th call appends an 11th turn and then the trim expression
`chat_histories[session_id:][-MAX_HISTORY_LENGTH:]` raises `TypeError`
(a dict sliced with a slice object), so the call returns 500 while the
history is left at length 11 — the invariant `length ≤ 10` is violated
and the oldest turn is never dropped. -/
theorem C1_cap_never_enforced :
    (histOf (runAsks (ChatHistories.dict []) sessA 10) (JsonVal.str sessA)).length = 10 ∧
    (askStr (runAsks (ChatHistories.dict []) sessA 10) (qLabel 11) sessA).status = 500 ∧
    (askStr (runAsks (ChatHistories.dict []) sessA 10) (qLabel 11) sessA).errorMsg
      = some (caughtMsg sliceExn) ∧
    (histOf (runAsks (ChatHistories.dict []) sessA 11) (JsonVal.str sessA)).length = 11 :=
  ⟨rfl, rfl, rfl, rfl⟩

/-- The store that `POST /clear-all-history` leaves behind when one
session existed: the Python list `[]`. -/
def clearedStore : ChatHistories :=
  (clear_history (ChatHistories.dict [(JsonVal.str sessA, [])])).2

/-- C2. Clearing does not reset the store to a fresh mapping: it replaces
the dict with an empty Python list, so the clear itself returns 200, but
a following `GET /sessions` raises `AttributeError` (`'list' object has
no attribute 'keys'`) and yields a 500 instead of an empty session list,
and a following `POST /ask` raises `TypeError` on
`chat_histories[session_id] = []` and yields a 500 without ever calling
the provider or creating a session. -/
theorem C2_clear_breaks_store :
    (clear_history (ChatHistories.dict [(JsonVal.str sessA, [])])).1.status = 200 ∧
    get_sessions clearedStore = ⟨500, none, none⟩ ∧
    (askStr clearedStore (qLabel 1) sessA).status = 500 ∧
    (askStr clearedStore (qLabel 1) sessA).store = ChatHistories.pylist ∧
    (askStr clearedStore (qLabel 1) sessA).providerCalls = [] :=
  ⟨rfl, rfl, rfl, rfl, rfl⟩

/-- C3, counterexample. On a provider failure for a never-seen session id
the handler does leave a trace in the store: the empty session entry was
created before the provider call, so afterwards a session exists that did
not exist before the request — contradicting the claim that the store is
completely unchanged. -/
theorem C3_counterexample :
    (ask_question (ChatHistories.dict []) (askBody (qLabel 1) sessA)
        failProvider tsConst).status = 500 ∧
    hasSession (ask_question (ChatHistories.dict []) (askBody (qLabel 1) sessA)
        failProvider tsConst).store sessA = true ∧
    hasSession (ChatHistories.dict []) sessA = false :=
  ⟨rfl, rfl, rfl⟩

/-- A request body that is a JSON array containing the string
`"question"`: not a JSON object with a `question` field. -/
def arrQuestionBody : JsonVal := JsonVal.arr [JsonVal.str questionKey]

/-- C5, counterexample. For the JSON array body `["question"]` — which is
not a JSON object containing a `question` field — validation passes
(Python `in` is element membership on lists), then `data['question']`
raises `TypeError`, and the handler returns 500, not a 400-class error. -/
theorem C5_counterexample :
    (ask_question (ChatHistories.dict []) arrQuestionBody okProvider tsConst).status = 500 ∧
    ¬ (ask_question (ChatHistories.dict []) arrQuestionBody okProvider tsConst).status = 400 :=
  ⟨rfl, by decide⟩

/-- Folding the render loop from any accumulator appends exactly the
spec-side rendering of the turns. -/
theorem foldl_render_eq (l : List Turn) (init : String) :
    l.foldl (fun acc t => acc ++ renderEntry t) init
      = init ++ specLines (l.map fun t => (pyStr t.question, t.answer)) := by
  induction l generalizing init with
  | nil => simp [specLines, String.append_empty]
  | cons t ts ih =>
      rw [List.foldl_cons, ih]
      simp [specLines, renderEntry, String.append_assoc]

/-- The context of a non-empty history is the header followed by the
spec-side rendering. -/
theorem contextOf_cons (t : Turn) (ts : List Turn) :
    contextOf (t :: ts)
      = previousConvHeader
        ++ specLines ((t :: ts).map fun u => (pyStr u.question, u.answer)) :=
  foldl_render_eq (t :: ts) previousConvHeader

/-- A string starting with the header is never empty. -/
theorem header_append_not_empty (s : String) :
    (previousConvHeader ++ s).isEmpty = false := by
  cases h : (previousConvHeader ++ s).isEmpty with
  | false => rfl
  | true =>
      exfalso
      have he : previousConvHeader ++ s = "" := (String.isEmpty_iff _).mp h
      have hlen := congrArg String.length he
      rw [String.length_append] at hlen
      have hh : previousConvHeader.length = 23 := rfl
      have hz : String.length "" = 0 := rfl
      omega

/-- C4. The contextualized prompt the handler builds refines the spec's
ContextBuilder: for an empty history it is the new question value
unchanged, and for a non-empty history it is exactly the spec's rendering
(header line, then per stored turn the lines `Human: <question>` and
`AI: <answer>` in stored order with the full texts, then the final
`Human: <new_question>` line). Both sides are plain functions, so the
construction is deterministic. -/
theorem C4_context_refines_spec (turns : List Turn) (q : String) :
    contextualize turns (JsonVal.str q)
      = if turns.isEmpty then Prompt.raw (JsonVal.str q)
        else Prompt.text (specBuild (turns.map fun t => (pyStr t.question, t.answer)) q) := by
  cases turns with
  | nil => rfl
  | cons t ts =>
      simp only [contextualize, contextOf_cons, header_append_not_empty,
        Bool.false_eq_true, if_false, List.isEmpty_cons, List.map_cons,
        specBuild, pyStr, String.append_assoc]

/-- Key comparison between two string-valued keys is string equality. -/
theorem keyEq_str (a b : String) : keyEq (JsonVal.str a) (JsonVal.str b) = (a == b) := rfl

/-- Only the string `b` itself compares key-equal to `str b`. -/
theorem keyEq_str_right (x : JsonVal) (b : String) (h : keyEq x (JsonVal.str b) = true) :
    x = JsonVal.str b := by
  cases x <;> simp_all [keyEq]

/-- Looking up a key just appended to a store that lacked it. -/
theorem lookupJ_append_self (sid : String) (e : List Turn) (m : List (JsonVal × List Turn))
    (h : lookupJ (JsonVal.str sid) m = none) :
    lookupJ (JsonVal.str sid) (m ++ [(JsonVal.str sid, e)]) = some e := by
  induction m with
  | nil => simp [lookupJ, keyEq_str]
  | cons p rest ih =>
      obtain ⟨k1, v⟩ := p
      cases hk : keyEq k1 (JsonVal.str sid) with
      | false =>
          simp only [lookupJ, hk] at h
          simp only [List.cons_append, lookupJ, hk]
          exact ih h
      | true => simp [lookupJ, hk] at h

/-- Appending an entry under a different key does not change a lookup. -/
theorem lookupJ_append_ne (k k2 : JsonVal) (e : List Turn) (m : List (JsonVal × List Turn))
    (h : keyEq k2 k = false) :
    lookupJ k (m ++ [(k2, e)]) = lookupJ k m := by
  induction m with
  | nil => simp [lookupJ, h]
  | cons p rest ih =>
      obtain ⟨k1, v⟩ := p
      cases hk : keyEq k1 k <;> simp [lookupJ, hk, ih]

/-- Lookup of the appended-to key after an in-place `append`. -/
theorem lookupJ_appendJ (k : JsonVal) (t : Turn) (m : List (JsonVal × List Turn)) :
    lookupJ k (appendJ k t m) = (lookupJ k m).map (fun v => v ++ [t]) := by
  induction m with
  | nil => rfl
  | cons p rest ih =>
      obtain ⟨k1, v⟩ := p
      cases hk : keyEq k1 k <;> simp [appendJ, lookupJ, hk, ih]

/-- An in-place `append` under session id `sid` leaves the entry of any
other string session id `t` untouched. -/
theorem lookupJ_appendJ_frame (t sid : String) (turn : Turn)
    (m : List (JsonVal × List Turn)) (hne : t ≠ sid) :
    lookupJ (JsonVal.str t) (appendJ (JsonVal.str sid) turn m)
      = lookupJ (JsonVal.str t) m := by
  induction m with
  | nil => rfl
  | cons p rest ih =>
      obtain ⟨k1, v⟩ := p
      cases hk : keyEq k1 (JsonVal.str sid) with
      | false => simp [appendJ, hk, lookupJ, ih]
      | true =>
          have hx := keyEq_str_right k1 sid hk
          subst hx
          have h2 : keyEq (JsonVal.str sid) (JsonVal.str t) = false := by
            rw [keyEq_str]
            exact beq_eq_false_iff_ne.mpr (fun hh => hne hh.symm)
          simp [appendJ, hk, lookupJ, h2]

/-- The turn list read for the session after the lazy entry creation
(`if session_id not in chat_histories: chat_histories[session_id] = []`)
is the turn list stored before it (empty when absent). -/
theorem hist_m1_eq (sid : String) (m : List (JsonVal × List Turn)) :
    (lookupJ (JsonVal.str sid)
        (if containsKeyJ (JsonVal.str sid) m then m
         else m ++ [(JsonVal.str sid, [])])).getD []
      = (lookupJ (JsonVal.str sid) m).getD [] := by
  cases hc : containsKeyJ (JsonVal.str sid) m with
  | true => simp [hc]
  | false =>
      have hn : lookupJ (JsonVal.str sid) m = none := by
        unfold containsKeyJ at hc
        cases hl : lookupJ (JsonVal.str sid) m with
        | none => rfl
        | some v => rw [hl] at hc; simp at hc
      simp [hc, lookupJ_append_self sid [] m hn, hn]

/-- The turn list stored for the session after entry creation followed by
the in-place append is the old turn list with the new turn at the end. -/
theorem newHist_eq (sid : String) (turn : Turn) (m : List (JsonVal × List Turn)) :
    (lookupJ (JsonVal.str sid) (appendJ (JsonVal.str sid) turn
        (if containsKeyJ (JsonVal.str sid) m then m
         else m ++ [(JsonVal.str sid, [])]))).getD []
      = (lookupJ (JsonVal.str sid) m).getD [] ++ [turn] := by
  rw [lookupJ_appendJ]
  cases hc : containsKeyJ (JsonVal.str sid) m with
  | true =>
      unfold containsKeyJ at hc
      cases hl : lookupJ (JsonVal.str sid) m with
      | none => rw [hl] at hc; simp at hc
      | some v => simp [hc, hl]
  | false =>
      have hn : lookupJ (JsonVal.str sid) m = none := by
        unfold containsKeyJ at hc
        cases hl : lookupJ (JsonVal.str sid) m with
        | none => rfl
        | some v => rw [hl] at hc; simp at hc
      simp [hc, lookupJ_append_self sid [] m hn, hn]

/-- Unfolding `ask_question` on an object body carrying a question, over a
dict store, when the resolved session id is a string: the handler reads
the stored history, calls the provider once on the contextualized
question, and on success appends the turn, 500-ing out of the trim when
the capped length is exceeded. -/
theorem ask_question_obj_eq (m : List (JsonVal × List Turn))
    (kvs : List (String × JsonVal)) (q : JsonVal) (sid : String)
    (provider : Prompt → Except PyExn String) (now : String)
    (hq : lookupKV questionKey kvs = some q)
    (hsid : (lookupKV sessionKey kvs).getD (JsonVal.str defaultSession) = JsonVal.str sid) :
    ask_question (ChatHistories.dict m) (JsonVal.obj kvs) provider now
      = (let hist := (lookupJ (JsonVal.str sid) m).getD []
         let m1 := if containsKeyJ (JsonVal.str sid) m then m
                   else m ++ [(JsonVal.str sid, [])]
         let prompt := contextualize hist q
         match provider prompt with
         | Except.error e =>
             { status := 500, answer := none, statusField := none, respSessionId := none,
               respHistory := none, errorMsg := some (caughtMsg e),
               store := ChatHistories.dict m1, providerCalls := [prompt] }
         | Except.ok ans =>
             let m2 := appendJ (JsonVal.str sid) ⟨q, ans, now⟩ m1
             let newHist := hist ++ [⟨q, ans, now⟩]
             if MAX_HISTORY_LENGTH < newHist.length then
               { status := 500, answer := none, statusField := none, respSessionId := none,
                 respHistory := none, errorMsg := some (caughtMsg sliceExn),
                 store := ChatHistories.dict m2, providerCalls := [prompt] }
             else
               { status := 200, answer := some ans, statusField := some successText,
                 respSessionId := some (JsonVal.str sid), respHistory := some newHist,
                 errorMsg := none, store := ChatHistories.dict m2,
                 providerCalls := [prompt] }) := by
  have hkvs : kvs ≠ [] := by
    intro hh
    rw [hh] at hq
    simp [lookupKV] at hq
  have htruthy : pyTruthy (JsonVal.obj kvs) = true := by
    cases kvs with
    | nil => exact absurd rfl hkvs
    | cons p rest => simp [pyTruthy]
  have hcontains : pyContainsQuestion (JsonVal.obj kvs) = ContainsRes.present := by
    simp [pyContainsQuestion, hq]
  simp only [ask_question, htruthy, hcontains, hq, hsid, hist_m1_eq, newHist_eq,
    Bool.true_eq_false, if_false, pyHashable]

/-- A key whose membership test fails has no entry. -/
theorem containsKeyJ_false_lookup (k : JsonVal) (m : List (JsonVal × List Turn))
    (hc : containsKeyJ k m = false) : lookupJ k m = none := by
  unfold containsKeyJ at hc
  cases hl : lookupJ k m with
  | none => rfl
  | some v => rw [hl] at hc; simp at hc

/-- The lazy entry creation changes no session's stored turn list (the
created entry is empty, and an absent entry already reads as empty). -/
theorem histOf_m1_frame (sid : String) (m : List (JsonVal × List Turn)) (t : String) :
    (lookupJ (JsonVal.str t) (if containsKeyJ (JsonVal.str sid) m then m
        else m ++ [(JsonVal.str sid, [])])).getD []
      = (lookupJ (JsonVal.str t) m).getD [] := by
  cases hc : containsKeyJ (JsonVal.str sid) m with
  | true => simp
  | false =>
      have hn := containsKeyJ_false_lookup _ _ hc
      by_cases ht : t = sid
      · subst ht
        simp [lookupJ_append_self t [] m hn, hn]
      · simp only [Bool.false_eq_true, if_false]
        rw [lookupJ_append_ne]
        rw [keyEq_str]
        exact beq_eq_false_iff_ne.mpr (fun hh => ht hh.symm)

/-- The lazy entry creation leaves every other session's existence bit
unchanged. -/
theorem hasSession_m1_frame (sid : String) (m : List (JsonVal × List Turn))
    (t : String) (hne : t ≠ sid) :
    containsKeyJ (JsonVal.str t) (if containsKeyJ (JsonVal.str sid) m then m
        else m ++ [(JsonVal.str sid, [])])
      = containsKeyJ (JsonVal.str t) m := by
  cases hc : containsKeyJ (JsonVal.str sid) m with
  | true => simp
  | false =>
      simp only [Bool.false_eq_true, if_false]
      unfold containsKeyJ
      rw [lookupJ_append_ne]
      rw [keyEq_str]
      exact beq_eq_false_iff_ne.mpr (fun hh => hne hh.symm)

/-- A character list is a prefix of itself. -/
theorem prefixCheck_refl (l : List Char) : prefixCheck l l = true := by
  induction l with
  | nil => rfl
  | cons c cs ih => simp [prefixCheck, ih]

/-- A character list occurs inside itself. -/
theorem infixCheck_self (l : List Char) : infixCheck l l = true := by
  cases l with
  | nil => rfl
  | cons c cs => simp [infixCheck, prefixCheck_refl]

/-- A character list occurs inside anything that ends with it. -/
theorem infixCheck_append_self (nl pl : List Char) : infixCheck nl (pl ++ nl) = true := by
  induction pl with
  | nil => simpa using infixCheck_self nl
  | cons c cs ih => simp [infixCheck, ih]

/-- A string is a substring of any string that ends with it. -/
theorem substrB_append_self (p n : String) : substrB n (p ++ n) = true := by
  unfold substrB
  rw [String.data_append]
  exact infixCheck_append_self n.data p.data

/-- Both `except` formats of the handler include the exception text. -/
theorem caughtMsg_includes (e : PyExn) : substrB e.msg (caughtMsg e) = true := by
  unfold caughtMsg
  cases h : (e.name == keyErrorName) <;>
    simp only [h, Bool.false_eq_true, if_false, if_true] <;>
    exact substrB_append_self _ _

/-- C3, amended. On a provider failure the handler returns a 500 whose
body includes the provider's error text, and no turn is recorded: every
session's stored turn list reads exactly as before the request; however,
an empty session entry may have been created for the request's session id
(that creation happens before the provider call), and no other session's
existence changes. -/
theorem C3_provider_failure_amended
    (m : List (JsonVal × List Turn)) (kvs : List (String × JsonVal)) (q : JsonVal)
    (sid : String) (provider : Prompt → Except PyExn String) (now : String) (e : PyExn)
    (hq : lookupKV questionKey kvs = some q)
    (hsid : (lookupKV sessionKey kvs).getD (JsonVal.str defaultSession) = JsonVal.str sid)
    (hprov : provider (contextualize (histOf (ChatHistories.dict m) (JsonVal.str sid)) q)
      = Except.error e) :
    (ask_question (ChatHistories.dict m) (JsonVal.obj kvs) provider now).status = 500 ∧
    (ask_question (ChatHistories.dict m) (JsonVal.obj kvs) provider now).errorMsg
      = some (caughtMsg e) ∧
    substrB e.msg (caughtMsg e) = true ∧
    (∀ t : String,
      histOf (ask_question (ChatHistories.dict m) (JsonVal.obj kvs) provider now).store
        (JsonVal.str t) = histOf (ChatHistories.dict m) (JsonVal.str t)) ∧
    (∀ t : String, t ≠ sid →
      hasSession (ask_question (ChatHistories.dict m) (JsonVal.obj kvs) provider now).store t
        = hasSession (ChatHistories.dict m) t) ∧
    (ask_question (ChatHistories.dict m) (JsonVal.obj kvs) provider now).providerCalls
      = [contextualize (histOf (ChatHistories.dict m) (JsonVal.str sid)) q] := by
  rw [ask_question_obj_eq m kvs q sid provider now hq hsid]
  simp only [histOf] at hprov
  refine ⟨?_, ?_, caughtMsg_includes e, fun t => ?_, fun t ht => ?_, ?_⟩
  · simp only [hprov]
  · simp only [hprov]
  · simp only [hprov, histOf]
    exact histOf_m1_frame sid m t
  · simp only [hprov, hasSession]
    exact hasSession_m1_frame sid m t ht
  · simp only [hprov, histOf]

/-- Witness for C3: a concrete failing provider call on a fresh store. -/
theorem C3_witness :
    (ask_question (ChatHistories.dict []) (askBody (qLabel 1) sessA)
        failProvider tsConst).status = 500 ∧
    substrB boomExn.msg (caughtMsg boomExn) = true ∧
    histOf (ask_question (ChatHistories.dict []) (askBody (qLabel 1) sessA)
        failProvider tsConst).store (JsonVal.str sessA)
      = histOf (ChatHistories.dict []) (JsonVal.str sessA) := by
  have h := C3_provider_failure_amended []
    [(questionKey, JsonVal.str (qLabel 1)), (sessionKey, JsonVal.str sessA)]
    (JsonVal.str (qLabel 1)) sessA failProvider tsConst boomExn rfl rfl rfl
  exact ⟨h.1, h.2.2.1, h.2.2.2.1 sessA⟩

/-- C7. A successful `/ask` appends a turn holding the original
(non-contextualized) question value, the provider answer and the
timestamp, and responds 200 with the answer, the `success` status, the
session id and the post-append history. (The cap branch is unreachable on
success: when the appended history exceeds the cap the trim raises and
the request 500s instead, so the 200 response carries the full
post-append history.) -/
theorem C7_success_records_turn
    (m : List (JsonVal × List Turn)) (kvs : List (String × JsonVal)) (q : JsonVal)
    (sid : String) (provider : Prompt → Except PyExn String) (now ans : String)
    (hq : lookupKV questionKey kvs = some q)
    (hsid : (lookupKV sessionKey kvs).getD (JsonVal.str defaultSession) = JsonVal.str sid)
    (hans : provider (contextualize (histOf (ChatHistories.dict m) (JsonVal.str sid)) q)
      = Except.ok ans)
    (hlen : (histOf (ChatHistories.dict m) (JsonVal.str sid)).length < MAX_HISTORY_LENGTH) :
    (ask_question (ChatHistories.dict m) (JsonVal.obj kvs) provider now).status = 200 ∧
    (ask_question (ChatHistories.dict m) (JsonVal.obj kvs) provider now).answer = some ans ∧
    (ask_question (ChatHistories.dict m) (JsonVal.obj kvs) provider now).statusField
      = some successText ∧
    (ask_question (ChatHistories.dict m) (JsonVal.obj kvs) provider now).respSessionId
      = some (JsonVal.str sid) ∧
    (ask_question (ChatHistories.dict m) (JsonVal.obj kvs) provider now).respHistory
      = some (histOf (ChatHistories.dict m) (JsonVal.str sid) ++ [⟨q, ans, now⟩]) ∧
    histOf (ask_question (ChatHistories.dict m) (JsonVal.obj kvs) provider now).store
        (JsonVal.str sid)
      = histOf (ChatHistories.dict m) (JsonVal.str sid) ++ [⟨q, ans, now⟩] := by
  simp only [histOf] at hans hlen
  have hcond : ¬ (MAX_HISTORY_LENGTH
      < ((lookupJ (JsonVal.str sid) m).getD [] ++ [(⟨q, ans, now⟩ : Turn)]).length) := by
    simp only [List.length_append, List.length_cons, List.length_nil]
    omega
  have hres : ask_question (ChatHistories.dict m) (JsonVal.obj kvs) provider now
      = { status := 200, answer := some ans, statusField := some successText,
          respSessionId := some (JsonVal.str sid),
          respHistory := some ((lookupJ (JsonVal.str sid) m).getD [] ++ [⟨q, ans, now⟩]),
          errorMsg := none,
          store := ChatHistories.dict (appendJ (JsonVal.str sid) ⟨q, ans, now⟩
            (if containsKeyJ (JsonVal.str sid) m then m else m ++ [(JsonVal.str sid, [])])),
          providerCalls := [contextualize ((lookupJ (JsonVal.str sid) m).getD []) q] } := by
    rw [ask_question_obj_eq m kvs q sid provider now hq hsid]
    simp [hans, hcond]
    omega
  rw [hres]
  refine ⟨rfl, rfl, rfl, rfl, rfl, ?_⟩
  simp only [histOf]
  exact newHist_eq sid ⟨q, ans, now⟩ m

/-- Witness for C7: a concrete successful call on a fresh store. -/
theorem C7_witness :
    (askStr (ChatHistories.dict []) (qLabel 1) sessA).status = 200 ∧
    (askStr (ChatHistories.dict []) (qLabel 1) sessA).answer = some okAnswer ∧
    (askStr (ChatHistories.dict []) (qLabel 1) sessA).respHistory
      = some [⟨JsonVal.str (qLabel 1), okAnswer, tsConst⟩] := by
  have h := C7_success_records_turn []
    [(questionKey, JsonVal.str (qLabel 1)), (sessionKey, JsonVal.str sessA)]
    (JsonVal.str (qLabel 1)) sessA okProvider tsConst okAnswer rfl rfl rfl (by decide)
  exact ⟨h.1, h.2.1, h.2.2.2.2.1⟩

/-- C6. Reading the history of a never-created session returns HTTP 200
with an empty history, count 0 and an informational error field, and
leaves the store exactly as it was. -/
theorem C6_history_unknown_session (m : List (JsonVal × List Turn)) (sid : String)
    (h : lookupJ (JsonVal.str sid) m = none) :
    (get_history (ChatHistories.dict m) sid).1.status = 200 ∧
    (get_history (ChatHistories.dict m) sid).1.history = [] ∧
    (get_history (ChatHistories.dict m) sid).1.count = 0 ∧
    (get_history (ChatHistories.dict m) sid).1.errorMsg = some (noHistoryMsg sid) ∧
    (get_history (ChatHistories.dict m) sid).2 = ChatHistories.dict m := by
  simp [get_history, h]

/-- Witness for C6: a concrete read of an unknown session. -/
theorem C6_witness :
    lookupJ (JsonVal.str sessA) ([] : List (JsonVal × List Turn)) = none ∧
    (get_history (ChatHistories.dict []) sessA).1.status = 200 ∧
    (get_history (ChatHistories.dict []) sessA).1.count = 0 ∧
    (get_history (ChatHistories.dict []) sessA).2 = ChatHistories.dict [] := by
  have h := C6_history_unknown_session [] sessA rfl
  exact ⟨rfl, h.1, h.2.2.1, h.2.2.2.2⟩

/-- An object body without the `question` key always takes the 400 branch
of the validation, leaving the store untouched and the provider uncalled. -/
theorem ask_question_no_question (store : ChatHistories) (kvs : List (String × JsonVal))
    (provider : Prompt → Except PyExn String) (now : String)
    (hq : lookupKV questionKey kvs = none) :
    ask_question store (JsonVal.obj kvs) provider now
      = askErr 400 missingQuestionMsg store := by
  cases kvs with
  | nil => rfl
  | cons p rest =>
      have htruthy : pyTruthy (JsonVal.obj (p :: rest)) = true := by simp [pyTruthy]
      have hcontains : pyContainsQuestion (JsonVal.obj (p :: rest)) = ContainsRes.absent := by
        simp [pyContainsQuestion, hq]
      simp only [ask_question, htruthy, hcontains, Bool.true_eq_false, if_false]

/-- C5, amended. A request whose body is `null`/absent or a JSON object
lacking the `question` key gets a 400 with the validation message, no
provider call, and an unchanged store (all carried by the `askErr`
record: status 400, empty provider-call list, same store). Truthy
non-object bodies can instead fall through to a 500, as the
counterexample shows. -/
theorem C5_amended_validation (store : ChatHistories) (kvs : List (String × JsonVal))
    (provider : Prompt → Except PyExn String) (now : String)
    (h : lookupKV questionKey kvs = none) :
    (ask_question store (JsonVal.obj kvs) provider now
      = askErr 400 missingQuestionMsg store) ∧
    (ask_question store JsonVal.null provider now
      = askErr 400 missingQuestionMsg store) :=
  ⟨ask_question_no_question store kvs provider now h, rfl⟩

/-- Witness for C5: a concrete body missing the question key, and a null
body. -/
theorem C5_witness :
    lookupKV questionKey [(sessionKey, JsonVal.str sessA)] = none ∧
    ask_question (ChatHistories.dict []) (JsonVal.obj [(sessionKey, JsonVal.str sessA)])
        okProvider tsConst = askErr 400 missingQuestionMsg (ChatHistories.dict []) ∧
    ask_question (ChatHistories.dict []) JsonVal.null okProvider tsConst
      = askErr 400 missingQuestionMsg (ChatHistories.dict []) := by
  have h := C5_amended_validation (ChatHistories.dict []) [(sessionKey, JsonVal.str sessA)]
    okProvider tsConst rfl
  exact ⟨rfl, h.1, h.2⟩

/-- An object body carrying the `question` key never takes the 400
branch, whatever the store, session id value or provider outcome. -/
theorem ask_question_some_not_400 (store : ChatHistories) (kvs : List (String × JsonVal))
    (q : JsonVal) (provider : Prompt → Except PyExn String) (now : String)
    (hq : lookupKV questionKey kvs = some q) :
    (ask_question store (JsonVal.obj kvs) provider now).status ≠ 400 := by
  have hkvs : kvs ≠ [] := by
    intro hh
    rw [hh] at hq
    simp [lookupKV] at hq
  have htruthy : pyTruthy (JsonVal.obj kvs) = true := by
    cases kvs with
    | nil => exact absurd rfl hkvs
    | cons p rest => simp [pyTruthy]
  have hcontains : pyContainsQuestion (JsonVal.obj kvs) = ContainsRes.present := by
    simp [pyContainsQuestion, hq]
  simp only [ask_question, htruthy, hcontains, hq, Bool.true_eq_false, if_false]
  repeat' split
  all_goals simp [askErr]

/-- C9. Validation looks only at the presence of the `question` key: for
an object body the 400 branch is taken exactly when the key is absent (an
empty object being both falsy and key-free), a null/absent body is a 400
with no provider call and no store change, and whenever the key is
present — whatever value it is bound to, null included — the provider is
invoked once with the contextualized form of exactly that value. -/
theorem C9_validation_presence_only (store : ChatHistories) (kvs : List (String × JsonVal))
    (provider : Prompt → Except PyExn String) (now : String) :
    ((ask_question store (JsonVal.obj kvs) provider now).status = 400
      ↔ lookupKV questionKey kvs = none) ∧
    ask_question store JsonVal.null provider now = askErr 400 missingQuestionMsg store ∧
    (∀ (m : List (JsonVal × List Turn)) (q : JsonVal) (sid : String),
      lookupKV questionKey kvs = some q →
      (lookupKV sessionKey kvs).getD (JsonVal.str defaultSession) = JsonVal.str sid →
      (ask_question (ChatHistories.dict m) (JsonVal.obj kvs) provider now).providerCalls
        = [contextualize (histOf (ChatHistories.dict m) (JsonVal.str sid)) q]) := by
  refine ⟨⟨?_, ?_⟩, rfl, ?_⟩
  · intro h400
    cases hq : lookupKV questionKey kvs with
    | none => rfl
    | some q => exact absurd h400 (ask_question_some_not_400 store kvs q provider now hq)
  · intro hnone
    rw [ask_question_no_question store kvs provider now hnone]
    rfl
  · intro m q sid hq hsid
    rw [ask_question_obj_eq m kvs q sid provider now hq hsid]
    simp only [histOf]
    cases hp : provider (contextualize ((lookupJ (JsonVal.str sid) m).getD []) q) with
    | error e => simp [hp]
    | ok ans =>
        simp only [hp]
        split <;> rfl

/-- Witness for C9: a body binding `question` to null passes validation
and the provider receives that null value unchanged. -/
theorem C9_witness :
    (ask_question (ChatHistories.dict []) (JsonVal.obj [(questionKey, JsonVal.null)])
        okProvider tsConst).providerCalls = [Prompt.raw JsonVal.null] :=
  (C9_validation_presence_only (ChatHistories.dict []) [(questionKey, JsonVal.null)]
    okProvider tsConst).2.2 [] JsonVal.null defaultSession rfl rfl

/-- A second concrete session id, distinct from `sessA`. -/
def sessB : String := "t0"

/-- C10. A successful `/ask` for session id `sid` touches at most that
session's entry: every other string session id keeps both its stored turn
list and its existence bit. (The frame in fact holds on every exit path
of the handler.) -/
theorem C10_frame_other_sessions (m : List (JsonVal × List Turn))
    (kvs : List (String × JsonVal)) (provider : Prompt → Except PyExn String)
    (now : String) (sid t : String)
    (hsid : (lookupKV sessionKey kvs).getD (JsonVal.str defaultSession) = JsonVal.str sid)
    (hne : t ≠ sid)
    (_h200 : (ask_question (ChatHistories.dict m) (JsonVal.obj kvs) provider now).status = 200) :
    histOf (ask_question (ChatHistories.dict m) (JsonVal.obj kvs) provider now).store
        (JsonVal.str t)
      = histOf (ChatHistories.dict m) (JsonVal.str t) ∧
    hasSession (ask_question (ChatHistories.dict m) (JsonVal.obj kvs) provider now).store t
      = hasSession (ChatHistories.dict m) t := by
  cases hq : lookupKV questionKey kvs with
  | none =>
      rw [ask_question_no_question (ChatHistories.dict m) kvs provider now hq]
      exact ⟨rfl, rfl⟩
  | some q =>
      rw [ask_question_obj_eq m kvs q sid provider now hq hsid]
      cases hp : provider (contextualize ((lookupJ (JsonVal.str sid) m).getD []) q) with
      | error e =>
          simp only [hp, histOf, hasSession]
          exact ⟨histOf_m1_frame sid m t, hasSession_m1_frame sid m t hne⟩
      | ok ans =>
          simp only [hp]
          split <;>
          · simp only [histOf, hasSession]
            constructor
            · rw [lookupJ_appendJ_frame t sid _ _ hne]
              exact histOf_m1_frame sid m t
            · unfold containsKeyJ
              rw [lookupJ_appendJ_frame t sid _ _ hne]
              have h2 := hasSession_m1_frame sid m t hne
              unfold containsKeyJ at h2
              exact h2

/-- Witness for C10: a concrete successful call for `sessA` leaves the
distinct session id `sessB` untouched. -/
theorem C10_witness :
    histOf (askStr (ChatHistories.dict []) (qLabel 1) sessA).store (JsonVal.str sessB)
      = histOf (ChatHistories.dict []) (JsonVal.str sessB) ∧
    hasSession (askStr (ChatHistories.dict []) (qLabel 1) sessA).store sessB
      = hasSession (ChatHistories.dict []) sessB :=
  C10_frame_other_sessions []
    [(questionKey, JsonVal.str (qLabel 1)), (sessionKey, JsonVal.str sessA)]
    okProvider tsConst sessA sessB rfl (by decide) rfl

/-- The numeric value of a lowercase hex digit character. -/
def hexVal (c : Char) : Nat :=
  if 97 ≤ c.toNat then c.toNat - 87 else c.toNat - 48

/-- Big-endian hex parsing, a left inverse of `hexDigits`. -/
def parseHex (l : List Char) : Nat :=
  l.foldl (fun a c => 16 * a + hexVal c) 0

/-- Parsing after appending one digit. -/
theorem parseHex_append (l : List Char) (c : Char) :
    parseHex (l ++ [c]) = 16 * parseHex l + hexVal c := by
  unfold parseHex
  rw [List.foldl_append]
  rfl

/-- `hexVal` inverts `hexChar` on digit values. -/
theorem hexVal_hexChar (m : Nat) (h : m < 16) : hexVal (hexChar m) = m := by
  interval_cases m <;> decide

/-- Hex digit characters are never the dash. -/
theorem hexChar_ne_dash (m : Nat) (h : m < 16) : (hexChar m == dashChar) = false := by
  interval_cases m <;> decide

/-- The fixed-width rendering has the requested width. -/
theorem hexDigits_length (n len : Nat) : (hexDigits n len).length = len := by
  induction len generalizing n with
  | zero => rfl
  | succ k ih => simp [hexDigits, ih]

/-- No character of the fixed-width hex rendering is the dash. -/
theorem hexDigits_no_dash (n len : Nat) :
    ∀ c ∈ hexDigits n len, (c == dashChar) = false := by
  induction len generalizing n with
  | zero => intro c hc; simp [hexDigits] at hc
  | succ k ih =>
      intro c hc
      simp only [hexDigits, List.mem_append, List.mem_singleton] at hc
      cases hc with
      | inl h1 => exact ih (n / 16) c h1
      | inr h2 =>
          rw [h2]
          exact hexChar_ne_dash _ (Nat.mod_lt _ (by norm_num))

/-- Parsing the fixed-width rendering recovers the value modulo the
width's range. -/
theorem parseHex_hexDigits (len n : Nat) : parseHex (hexDigits n len) = n % 16 ^ len := by
  induction len generalizing n with
  | zero => simp [hexDigits, parseHex, Nat.pow_zero, Nat.mod_one]
  | succ k ih =>
      show parseHex (hexDigits (n / 16) k ++ [hexChar (n % 16)]) = _
      rw [parseHex_append, ih, hexVal_hexChar _ (Nat.mod_lt _ (by norm_num))]
      rw [Nat.pow_succ', Nat.mod_mul]
      omega

/-- Removing the dashes of the rendered UUID. -/
def stripDash (l : List Char) : List Char :=
  l.filter (fun c => !(c == dashChar))

/-- Filtering out dashes keeps a dash-free list intact. -/
theorem stripDash_of_no_dash (l : List Char) (h : ∀ c ∈ l, (c == dashChar) = false) :
    stripDash l = l := by
  apply List.filter_eq_self.mpr
  intro a ha
  simp [h a ha]

/-- Reassembling the four take/drop segments of the 8-4-4-4-12 grouping. -/
theorem takeDropChain (d : List Char) :
    d.take 8 ++ ((d.drop 8).take 4 ++ ((d.drop 12).take 4
      ++ ((d.drop 16).take 4 ++ d.drop 20))) = d := by
  have h16 := List.take_append_drop 4 (d.drop 16)
  rw [List.drop_drop] at h16
  norm_num at h16
  have h12 := List.take_append_drop 4 (d.drop 12)
  rw [List.drop_drop] at h12
  norm_num at h12
  have h8 := List.take_append_drop 4 (d.drop 8)
  rw [List.drop_drop] at h8
  norm_num at h8
  rw [h16, h12, h8, List.take_append_drop]

/-- Stripping the dashes of an 8-4-4-4-12 grouping of a dash-free list
recovers the list. -/
theorem stripDash_grouped (d : List Char) (hnd : ∀ c ∈ d, (c == dashChar) = false) :
    stripDash (d.take 8 ++ dashChar :: (d.drop 8).take 4 ++ dashChar :: (d.drop 12).take 4
      ++ dashChar :: (d.drop 16).take 4 ++ dashChar :: d.drop 20) = d := by
  have hd8 : ∀ c ∈ d.drop 8, (c == dashChar) = false :=
    fun c hc => hnd c (List.drop_subset _ _ hc)
  have hd12 : ∀ c ∈ d.drop 12, (c == dashChar) = false :=
    fun c hc => hnd c (List.drop_subset _ _ hc)
  have hd16 : ∀ c ∈ d.drop 16, (c == dashChar) = false :=
    fun c hc => hnd c (List.drop_subset _ _ hc)
  have hd20 : ∀ c ∈ d.drop 20, (c == dashChar) = false :=
    fun c hc => hnd c (List.drop_subset _ _ hc)
  have ht8 : ∀ c ∈ d.take 8, (c == dashChar) = false :=
    fun c hc => hnd c (List.take_subset _ _ hc)
  have ht4a : ∀ c ∈ (d.drop 8).take 4, (c == dashChar) = false :=
    fun c hc => hd8 c (List.take_subset _ _ hc)
  have ht4b : ∀ c ∈ (d.drop 12).take 4, (c == dashChar) = false :=
    fun c hc => hd12 c (List.take_subset _ _ hc)
  have ht4c : ∀ c ∈ (d.drop 16).take 4, (c == dashChar) = false :=
    fun c hc => hd16 c (List.take_subset _ _ hc)
  unfold stripDash
  simp only [List.filter_append, List.filter_cons]
  have hdash : ((!(dashChar == dashChar)) = true) = False := by decide
  simp only [hdash, if_false]
  have e8 : List.filter (fun c => !(c == dashChar)) (d.take 8) = d.take 8 :=
    stripDash_of_no_dash _ ht8
  have e4a : List.filter (fun c => !(c == dashChar)) ((d.drop 8).take 4)
      = (d.drop 8).take 4 := stripDash_of_no_dash _ ht4a
  have e4b : List.filter (fun c => !(c == dashChar)) ((d.drop 12).take 4)
      = (d.drop 12).take 4 := stripDash_of_no_dash _ ht4b
  have e4c : List.filter (fun c => !(c == dashChar)) ((d.drop 16).take 4)
      = (d.drop 16).take 4 := stripDash_of_no_dash _ ht4c
  have e20 : List.filter (fun c => !(c == dashChar)) (d.drop 20) = d.drop 20 :=
    stripDash_of_no_dash _ hd20
  rw [e8, e4a, e4b, e4c, e20]
  simp only [List.append_assoc]
  exact takeDropChain d

/-- Stripping the dashes of the rendered UUID gives back the 32 hex
digits. -/
theorem stripDash_uuidChars (n : Nat) : stripDash (uuidChars n) = hexDigits n 32 :=
  stripDash_grouped (hexDigits n 32) (hexDigits_no_dash n 32)

/-- The rendered UUID text determines the 128-bit value. -/
theorem uuidStr_inj (a b : Nat) (ha : a < 2 ^ 128) (hb : b < 2 ^ 128)
    (h : uuidStr a = uuidStr b) : a = b := by
  have hchars : uuidChars a = uuidChars b := congrArg String.data h
  have hdig : hexDigits a 32 = hexDigits b 32 := by
    rw [← stripDash_uuidChars a, ← stripDash_uuidChars b, hchars]
  have hparse := congrArg parseHex hdig
  rw [parseHex_hexDigits, parseHex_hexDigits] at hparse
  have h16 : (16 : Nat) ^ 32 = 2 ^ 128 := by norm_num
  rw [h16] at hparse
  rwa [Nat.mod_eq_of_lt ha, Nat.mod_eq_of_lt hb] at hparse

/-- The forced-bits UUID value stays a 128-bit value. -/
theorem uuid4_lt (r : Nat) : uuid4 r < 2 ^ 128 := by
  show ((((r % 2 ^ 128) &&& (2 ^ 128 - 1 - (0xc000 <<< 48))) ||| (0x8000 <<< 48))
      &&& (2 ^ 128 - 1 - (0xf000 <<< 64))) ||| (4 <<< 76) < 2 ^ 128
  exact Nat.or_lt_two_pow (Nat.and_lt_two_pow _ (by decide)) (by decide)

/-- C8. Two `GET /generate-session` calls whose generated 128-bit UUID
values differ return distinct session identifier strings: the text
rendering is injective on 128-bit values, so distinct identifiers never
collide as strings. -/
theorem C8_distinct_uuid_distinct_id (r1 r2 : Nat) (h : uuid4 r1 ≠ uuid4 r2) :
    (generate_session r1).respSessionId ≠ (generate_session r2).respSessionId := by
  intro hEq
  exact h (uuidStr_inj (uuid4 r1) (uuid4 r2) (uuid4_lt r1) (uuid4_lt r2) hEq)

/-- Witness for C8: two concrete draws of randomness with distinct UUID
values yield distinct session id strings. -/
theorem C8_witness :
    uuid4 0 ≠ uuid4 1 ∧
    (generate_session 0).respSessionId ≠ (generate_session 1).respSessionId :=
  ⟨by decide, C8_distinct_uuid_distinct_id 0 1 (by decide)⟩
